import Mathlib

/-!
Verification of the Prediction Serving + Model Lifecycle core of the
open-coverage repository, as a shallow embedding of
`python-models/server/server.py` and `python-models/models/model_registry.py`.

Numbers handled by the service (feature values and raw pipeline outputs) are
modelled as rationals; a pandas/NumPy missing value (NaN / None) is modelled
as `none` in `Option`.  Fallible Python code (raised exceptions caught at a
boundary) is modelled with `Except`.  The module-level mutable cache
`_MODELS` is modelled by explicit state passing of an `Option Registry`.
-/

namespace OpenCoverage

/-- The eight prediction targets of the MEPS v2 utilization service
(`COUNT_TARGETS`, server.py lines 68-77). -/
def COUNT_TARGETS : List String :=
  ["pcp_visits", "outpatient_visits", "er_visits", "inpatient_admits",
   "home_health_visits", "rx_fills", "dental_visits", "equipment_purchases"]

/-- The feature columns expected by the saved pipelines, in the fixed order
that matters (`FEATURE_COLS`, server.py lines 81-119). -/
def FEATURE_COLS : List String :=
  ["age_years_2022", "gender", "race_ethnicity", "hispanic_origin_category",
   "census_region", "education_years", "highest_degree_achieved",
   "family_income_2022", "poverty_level_pct", "poverty_category",
   "employment_status", "hours_worked_per_week",
   "occupation_industry_category", "family_size", "marital_status",
   "spouse_in_household", "insurance_coverage_type",
   "has_usual_source_of_care", "usual_care_location_type",
   "delayed_care_due_to_cost", "delayed_prescription_due_to_cost",
   "received_snap", "snap_benefit_value_2022", "bmi", "smoking_frequency",
   "alcohol_consumption_frequency", "exercise_days_per_week",
   "english_proficiency", "us_born_flag", "years_in_us",
   "difficulty_lifting_carrying", "difficulty_walking_stairs",
   "any_activity_limitation", "cognitive_limitation", "k6_distress_score",
   "hopelessness_frequency_30d", "sadness_frequency_30d"]

/-- A sparse prediction input: the request body's mapping from feature names
to numbers, with the keys in the order they appear in the request.  All
fields of the pydantic `Features` model (server.py lines 122-160) default to
`None`, so a key absent from the input is read back as a missing value. -/
abbrev FeatureInput := List (String × ℚ)

/-- The value `getattr(features, col)` of the parsed request for a field
`col`: the number attached to the key when it was supplied, `None` (here
`none`) when it was not. -/
def getAttr (features : FeatureInput) (col : String) : Option ℚ :=
  List.lookup col features

/-- The feature row assembled by `predict` (server.py lines 203-204):
for each schema column, in `FEATURE_COLS` order, pair it with the value read
from the request, keeping an absent value as the missing marker.  This is the
single row of the DataFrame built with `columns=FEATURE_COLS`. -/
def buildRow (features : FeatureInput) : List (String × Option ℚ) :=
  FEATURE_COLS.map fun c => (c, getAttr features c)

/-- Looking a key up in a graph built over columns not containing it yields
nothing: schema rows hold no entry for a non-schema field. -/
theorem lookup_map_of_not_mem (f : String → Option ℚ) :
    ∀ (cols : List String) (c : String), c ∉ cols →
      List.lookup c (cols.map fun x => (x, f x)) = none := by
  intro cols
  induction cols with
  | nil => intro c _; rfl
  | cons k ks ih =>
      intro c hc
      have hck : (c == k) = false :=
        beq_false_of_ne fun h => hc (h ▸ List.mem_cons_self k ks)
      simp only [List.map_cons, List.lookup_cons, hck]
      exact ih c fun h => hc (List.mem_cons_of_mem _ h)

/-- Association-list lookup is unchanged by permuting the list, provided the
keys are distinct: the request mapping's key order does not affect the value
read for any field. -/
theorem lookup_eq_of_perm_nodupkeys :
    ∀ {l₁ l₂ : FeatureInput}, l₁.Perm l₂ → (l₁.map Prod.fst).Nodup →
      ∀ c, List.lookup c l₁ = List.lookup c l₂ := by
  intro l₁ l₂ p
  induction p with
  | nil => intro _ _; rfl
  | cons x p ih =>
      obtain ⟨k, v⟩ := x
      intro nd c
      by_cases hck : c = k
      · subst hck; simp [List.lookup_cons]
      · simp only [List.lookup_cons, beq_false_of_ne hck]
        refine ih ?_ c
        simp only [List.map_cons, List.nodup_cons] at nd
        exact nd.2
  | swap x y l =>
      obtain ⟨kx, vx⟩ := x
      obtain ⟨ky, vy⟩ := y
      intro nd c
      have hyx : ky ≠ kx := by
        simp only [List.map_cons, List.nodup_cons, List.mem_cons] at nd
        exact fun h => nd.1 (Or.inl h)
      by_cases hcy : c = ky
      · subst hcy
        simp [List.lookup_cons, beq_false_of_ne hyx]
      · by_cases hcx : c = kx
        · subst hcx
          simp [List.lookup_cons, beq_false_of_ne fun h => hcy h]
        · simp [List.lookup_cons, beq_false_of_ne hcy, beq_false_of_ne hcx]
  | trans p₁ p₂ ih₁ ih₂ =>
      intro nd c
      have nd₂ := (List.Perm.nodup_iff (p₁.map Prod.fst)).mp nd
      exact (ih₁ nd c).trans (ih₂ nd₂ c)

/-- C1: for every sparse input, the feature row assembled by `predict` has
exactly the schema's columns, in schema order and number; a schema column
absent from the input is present in the row with the missing marker (so it is
neither dropped nor defaulted to a number such as zero); a field outside the
schema has no entry in the row; and the assembled row is invariant under
permutations of the input mapping's keys. -/
theorem C1_fixed_schema_row (features : FeatureInput) :
    ((buildRow features).map Prod.fst = FEATURE_COLS) ∧
    ((buildRow features).length = FEATURE_COLS.length) ∧
    (∀ c, c ∈ FEATURE_COLS → getAttr features c = none →
      List.lookup c (buildRow features) = some none) ∧
    (∀ c, c ∉ FEATURE_COLS → List.lookup c (buildRow features) = none) ∧
    (∀ features' : FeatureInput, features.Perm features' →
      (features.map Prod.fst).Nodup → buildRow features = buildRow features') := by
  refine ⟨?_, ?_, ?_, ?_, ?_⟩
  · simp [buildRow, Function.comp_def]
  · simp [buildRow]
  · intro c hc hnone
    have h := List.lookup_graph (fun x => getAttr features x) hc
    simpa [buildRow, hnone] using h
  · intro c hc
    exact lookup_map_of_not_mem _ FEATURE_COLS c hc
  · intro f' p nd
    unfold buildRow
    refine List.map_congr_left fun c _ => ?_
    have := lookup_eq_of_perm_nodupkeys p nd c
    simp only [getAttr, this]

/-- Witness for C1 at the spec's own example input: with only gender and age
supplied, the assembled row still carries the bmi column, valued missing. -/
theorem C1_fixed_schema_row_witness :
    List.lookup "bmi" (buildRow [("gender", (1 : ℚ)), ("age_years_2022", 45)]) =
      some none :=
  (C1_fixed_schema_row [("gender", (1 : ℚ)), ("age_years_2022", 45)]).2.2.1
    "bmi" (by decide) (by decide)

/-- Python's builtin round at rationals: round half to even.  This is the
rounding the service applies to each raw pipeline output through
`int(round(pred_value))` (server.py line 210). -/
def pythonRound (x : ℚ) : ℤ :=
  if x - Rat.floor x < 1 / 2 then Rat.floor x
  else if 1 / 2 < x - Rat.floor x then Rat.floor x + 1
  else if Rat.floor x % 2 = 0 then Rat.floor x else Rat.floor x + 1

/-- The computable rational floor agrees with the ordered-field floor. -/
theorem ratFloor_eq_intFloor (x : ℚ) : Rat.floor x = ⌊x⌋ :=
  (Rat.floor_def' x).trans Rat.floor_def.symm

/-- Half-to-even rounding lands on a nearest integer: the rounded value is
within one half of the raw value. -/
theorem abs_sub_pythonRound_le_half (x : ℚ) :
    |x - (pythonRound x : ℚ)| ≤ 1 / 2 := by
  have h1 : (⌊x⌋ : ℚ) ≤ x := Int.floor_le x
  have h2 : x < ⌊x⌋ + 1 := Int.lt_floor_add_one x
  unfold pythonRound
  rw [ratFloor_eq_intFloor]
  split
  · next h => rw [abs_le]; constructor <;> linarith
  · next h =>
    split
    · next h' => rw [abs_le]; push_cast; constructor <;> linarith
    · next h' =>
      have hhalf : x - (⌊x⌋ : ℚ) = 1 / 2 := le_antisymm (not_lt.mp h') (not_lt.mp h)
      split <;> (rw [abs_le]; push_cast; constructor <;> linarith)

/-- A single-row feature frame as the saved pipelines consume it. -/
abbrev Row := List (String × Option ℚ)

/-- A deserialized joblib pipeline for one target: `float(pipe.predict(X)[0])`
on the single feature row, producing one raw rational, or raising. -/
abbrev Pipe := Row → Except String ℚ

/-- The loaded model registry built by `_load_models`: one pipeline per
target, in insertion order. -/
abbrev Registry := List (String × Pipe)

/-- The prediction loop of `predict` (server.py lines 206-210): run each
target's pipeline on the row in registry order and coerce every raw output
with `max(0, int(round(pred_value)))`; the first raised error aborts the
whole loop with no partial output. -/
def runPipes : Registry → Row → Except String (List (String × ℤ))
  | [], _ => .ok []
  | (t, p) :: rest, row =>
    match p row with
    | .ok raw =>
      match runPipes rest row with
      | .ok outs => .ok ((t, max 0 (pythonRound raw)) :: outs)
      | .error e => .error e
    | .error e => .error e

/-- C2: whenever the prediction loop succeeds, the value it serves for the
target at any position of the registry is exactly `max 0 (pythonRound raw)`
where `raw` is the raw output that target's pipeline produced on the row: a
non-negative integer obtained by rounding the raw value (possibly negative or
fractional) to a nearest integer (Python's round, half to even) and clamping
at zero. -/
theorem C2_served_value (models : Registry) (row : Row)
    (outs : List (String × ℤ)) (h : runPipes models row = .ok outs) :
    ∀ (i : Nat) (t : String) (p : Pipe), models[i]? = some (t, p) →
      ∃ raw : ℚ, p row = .ok raw ∧
        outs[i]? = some (t, max 0 (pythonRound raw)) ∧
        0 ≤ max 0 (pythonRound raw) ∧
        |raw - (pythonRound raw : ℚ)| ≤ 1 / 2 := by
  induction models generalizing outs with
  | nil => intro i t p hi; simp at hi
  | cons hd rest ih =>
      obtain ⟨t₀, p₀⟩ := hd
      intro i t p hi
      cases hraw : p₀ row with
      | error e => simp only [runPipes, hraw] at h; exact (Except.noConfusion h)
      | ok raw =>
        cases hrest : runPipes rest row with
        | error e =>
            simp only [runPipes, hraw, hrest] at h
            exact (Except.noConfusion h)
        | ok outs' =>
          simp only [runPipes, hraw, hrest, Except.ok.injEq] at h
          subst h
          cases i with
          | zero =>
              simp only [List.getElem?_cons_zero, Option.some.injEq,
                Prod.mk.injEq] at hi
              obtain ⟨ht, hp⟩ := hi
              subst ht; subst hp
              exact ⟨raw, hraw, by simp, le_max_left _ _,
                abs_sub_pythonRound_le_half raw⟩
          | succ n =>
              simp only [List.getElem?_cons_succ] at hi ⊢
              exact ih outs' hrest n t p hi

/-- A pipeline producing the negative fractional raw output -3/2. -/
def pipeNeg : Pipe := fun _ => .ok (-(3 : ℚ) / 2)

/-- Witness for C2 on a one-target registry whose pipeline produces a
negative fractional raw value. -/
theorem C2_served_value_witness :
    ∃ raw : ℚ, pipeNeg (buildRow []) = .ok raw ∧
      [("pcp_visits", max 0 (pythonRound (-(3 : ℚ) / 2)))][0]? =
        some ("pcp_visits", max 0 (pythonRound raw)) ∧
      0 ≤ max 0 (pythonRound raw) ∧
      |raw - (pythonRound raw : ℚ)| ≤ 1 / 2 :=
  C2_served_value [("pcp_visits", pipeNeg)] (buildRow [])
    [("pcp_visits", max 0 (pythonRound (-(3 : ℚ) / 2)))] rfl
    0 "pcp_visits" pipeNeg rfl

/-- The artifact filesystem as `_load_models` observes it: whether the
`v2-pkl` models directory exists, whether the per-target artifact file
`model_<target>.pkl` exists, and the joblib deserialization outcome for each
target's file (`none` models a raising `joblib.load`). -/
structure FS where
  modelsDirExists : Bool
  fileExists : String → Bool
  loadOk : String → Option Pipe

/-- The per-target loading loop of `_load_models` (server.py lines 177-183):
for each target in order, fail on a missing artifact file or a failed
deserialization, otherwise install the target's pipeline in the registry. -/
def loadLoop (fs : FS) : List String → Registry → Except String Registry
  | [], acc => .ok acc
  | t :: ts, acc =>
    if fs.fileExists t then
      match fs.loadOk t with
      | some p => loadLoop fs ts (acc ++ [(t, p)])
      | none => .error ("joblib.load raised for model_" ++ t ++ ".pkl")
    else .error ("Missing model file: model_" ++ t ++ ".pkl")

/-- `_load_models` (server.py lines 167-185): return the cached registry when
the module global `_MODELS` is set; otherwise check the models directory, run
the loading loop over all of `COUNT_TARGETS`, and publish the fully built
registry to the global only on success.  The first component is the call's
outcome, the second the value of `_MODELS` after the call. -/
def load_models (st : Option Registry) (fs : FS) :
    Except String Registry × Option Registry :=
  match st with
  | some r => (.ok r, some r)
  | none =>
    if fs.modelsDirExists then
      match loadLoop fs COUNT_TARGETS [] with
      | .ok reg => (.ok reg, some reg)
      | .error e => (.error e, none)
    else (.error "Models directory not found", none)

/-- The `/health` endpoint (server.py lines 188-194): force the lazy load and
report ok, or surface the load error as an HTTP 500 failure. -/
def health (st : Option Registry) (fs : FS) :
    Except String String × Option Registry :=
  match load_models st fs with
  | (.ok _, st') => (.ok "ok", st')
  | (.error e, st') => (.error e, st')

/-- The `/predict` endpoint (server.py lines 197-214): force the lazy load,
assemble the fixed-order feature row, and run every target's pipeline; any
raised error is surfaced as an HTTP 500 failure for the whole request. -/
def predict (st : Option Registry) (fs : FS) (features : FeatureInput) :
    Except String (List (String × ℤ)) × Option Registry :=
  match load_models st fs with
  | (.ok models, st') => (runPipes models (buildRow features), st')
  | (.error e, st') => (.error e, st')

/-- A successful loading loop installs exactly the targets it was given, in
order, after those already installed. -/
theorem loadLoop_ok_keys (fs : FS) :
    ∀ (ts : List String) (acc reg : Registry),
      loadLoop fs ts acc = .ok reg →
      reg.map Prod.fst = acc.map Prod.fst ++ ts := by
  intro ts
  induction ts with
  | nil =>
      intro acc reg h
      simp only [loadLoop, Except.ok.injEq] at h
      subst h; simp
  | cons t ts ih =>
      intro acc reg h
      cases hf : fs.fileExists t with
      | false => simp [loadLoop, hf] at h
      | true =>
          cases hl : fs.loadOk t with
          | none => simp [loadLoop, hf, hl] at h
          | some p =>
              simp only [loadLoop, hf, hl, if_true] at h
              have hkeys := ih (acc ++ [(t, p)]) reg h
              simpa using hkeys

/-- A successful prediction loop serves exactly the registry's targets, in
registry order. -/
theorem runPipes_ok_keys :
    ∀ (models : Registry) (row : Row) (outs : List (String × ℤ)),
      runPipes models row = .ok outs →
      outs.map Prod.fst = models.map Prod.fst := by
  intro models
  induction models with
  | nil =>
      intro row outs h
      simp only [runPipes, Except.ok.injEq] at h
      subst h; rfl
  | cons hd rest ih =>
      obtain ⟨t, p⟩ := hd
      intro row outs h
      cases hraw : p row with
      | error e => simp only [runPipes, hraw] at h; exact (Except.noConfusion h)
      | ok raw =>
        cases hrest : runPipes rest row with
        | error e =>
            simp only [runPipes, hraw, hrest] at h
            exact (Except.noConfusion h)
        | ok outs' =>
            simp only [runPipes, hraw, hrest, Except.ok.injEq] at h
            subst h
            simp [ih row outs' hrest]

/-- If any pipeline in the registry raises on the row, the whole prediction
loop raises: partial output is impossible. -/
theorem runPipes_error_of_mem :
    ∀ (models : Registry) (row : Row) (t : String) (p : Pipe) (e : String),
      (t, p) ∈ models → p row = .error e →
      ∃ e', runPipes models row = .error e' := by
  intro models
  induction models with
  | nil => intro row t p e hm _; exact absurd hm (List.not_mem_nil _)
  | cons hd rest ih =>
      obtain ⟨t₀, p₀⟩ := hd
      intro row t p e hm hp
      cases hraw : p₀ row with
      | error e₀ => exact ⟨e₀, by simp [runPipes, hraw]⟩
      | ok raw =>
          rcases List.mem_cons.mp hm with heq | hmem
          · have hp0 : p = p₀ := congrArg Prod.snd heq
            rw [hp0] at hp
            rw [hp] at hraw
            exact (Except.noConfusion hraw)
          · obtain ⟨e', he'⟩ := ih row t p e hmem hp
            exact ⟨e', by simp [runPipes, hraw, he']⟩

/-- If some listed target's artifact file is missing, the loading loop fails,
whatever the other targets' files look like. -/
theorem loadLoop_error_of_missing (fs : FS) :
    ∀ (ts : List String) (acc : Registry) (t : String),
      t ∈ ts → fs.fileExists t = false →
      ∃ e, loadLoop fs ts acc = .error e := by
  intro ts
  induction ts with
  | nil => intro acc t hm _; exact absurd hm (List.not_mem_nil _)
  | cons t₀ ts ih =>
      intro acc t hm hmiss
      cases hf : fs.fileExists t₀ with
      | false =>
          exact ⟨"Missing model file: model_" ++ t₀ ++ ".pkl",
            by simp [loadLoop, hf]⟩
      | true =>
          cases hl : fs.loadOk t₀ with
          | none =>
              exact ⟨"joblib.load raised for model_" ++ t₀ ++ ".pkl",
                by simp [loadLoop, hf, hl]⟩
          | some p =>
              have hmem : t ∈ ts := by
                rcases List.mem_cons.mp hm with rfl | hmem
                · rw [hf] at hmiss; exact absurd hmiss (by simp)
                · exact hmem
              obtain ⟨e, he⟩ := ih (acc ++ [(t₀, p)]) t hmem hmiss
              exact ⟨e, by simp [loadLoop, hf, hl, he]⟩

/-- A load error surfaces unchanged on both endpoints. -/
theorem endpoints_error_of_load_error (st : Option Registry) (fs : FS)
    (e : String) (h : (load_models st fs).1 = .error e) :
    (health st fs).1 = .error e ∧
    ∀ features : FeatureInput, (predict st fs features).1 = .error e := by
  rcases hp : load_models st fs with ⟨res, st'⟩
  rw [hp] at h
  cases res with
  | ok r => exact (Except.noConfusion h)
  | error e₀ =>
      have he : e₀ = e := by simpa using h
      subst he
      constructor
      · unfold health; rw [hp]
      · intro features; unfold predict; rw [hp]

/-- C4: when loading fails from the Unloaded state, the triggering call
surfaces the error on both endpoints and the cache is left Unloaded (the
module global stays None), so a later call runs the full load again exactly
as a first call would: the failure is neither cached nor partially
applied. -/
theorem C4_load_failure_resets (fs : FS) (e : String)
    (h : (load_models none fs).1 = .error e) :
    (load_models none fs).2 = none ∧
    (health none fs).1 = .error e ∧
    (∀ features : FeatureInput, (predict none fs features).1 = .error e) ∧
    (∀ fs₂ : FS, load_models ((load_models none fs).2) fs₂ =
      load_models none fs₂) := by
  have hst : (load_models none fs).2 = none := by
    unfold load_models at h ⊢
    cases hd : fs.modelsDirExists with
    | false => simp [hd]
    | true =>
        cases hl : loadLoop fs COUNT_TARGETS [] with
        | ok reg => simp [hd, hl] at h
        | error e' => simp [hd, hl]
  obtain ⟨hh, hpred⟩ := endpoints_error_of_load_error none fs e h
  exact ⟨hst, hh, hpred, fun fs₂ => by rw [hst]⟩

/-- Witness for C4 on a filesystem missing the whole models directory. -/
theorem C4_load_failure_resets_witness :
    (load_models none (FS.mk false (fun _ => false) (fun _ => none))).2 = none ∧
    (health none (FS.mk false (fun _ => false) (fun _ => none))).1 =
      .error "Models directory not found" ∧
    (predict none (FS.mk false (fun _ => false) (fun _ => none)) []).1 =
      .error "Models directory not found" := by
  obtain ⟨h1, h2, h3, _⟩ := C4_load_failure_resets
    (FS.mk false (fun _ => false) (fun _ => none))
    "Models directory not found" rfl
  exact ⟨h1, h2, h3 []⟩

/-- The successfully loaded registry always carries exactly the known
targets. -/
theorem load_models_ok_keys (fs : FS) (models : Registry)
    (st' : Option Registry) (h : load_models none fs = (.ok models, st')) :
    models.map Prod.fst = COUNT_TARGETS := by
  unfold load_models at h
  cases hd : fs.modelsDirExists with
  | false => simp [hd] at h
  | true =>
      cases hl : loadLoop fs COUNT_TARGETS [] with
      | error e => simp [hd, hl] at h
      | ok reg =>
          simp only [hd, hl, if_true, Prod.mk.injEq, Except.ok.injEq] at h
          rw [← h.1]
          simpa using loadLoop_ok_keys fs COUNT_TARGETS [] reg hl

/-- C5: predict is all-or-nothing per request.  From a cold start a
successful request serves every known target (exactly the COUNT_TARGETS
keys, in order); and whenever any single loaded pipeline raises on the
assembled row, the whole request fails with an error, so a mapping covering
only part of the targets is never returned. -/
theorem C5_all_or_nothing :
    (∀ (fs : FS) (features : FeatureInput) (out : List (String × ℤ)),
      (predict none fs features).1 = .ok out →
      out.map Prod.fst = COUNT_TARGETS) ∧
    (∀ (st : Option Registry) (fs : FS) (features : FeatureInput)
       (models : Registry) (st' : Option Registry) (t : String) (p : Pipe)
       (e : String),
      load_models st fs = (.ok models, st') → (t, p) ∈ models →
      p (buildRow features) = .error e →
      ∃ e', (predict st fs features).1 = .error e') := by
  constructor
  · intro fs features out h
    unfold predict at h
    rcases hlm : load_models none fs with ⟨res, st'⟩
    rw [hlm] at h
    cases res with
    | error e => exact (Except.noConfusion h)
    | ok models =>
        have hout : runPipes models (buildRow features) = .ok out := h
        rw [runPipes_ok_keys models (buildRow features) out hout]
        exact load_models_ok_keys fs models st' hlm
  · intro st fs features models st' t p e hlm hm hp
    obtain ⟨e', he'⟩ := runPipes_error_of_mem models (buildRow features) t p e hm hp
    refine ⟨e', ?_⟩
    unfold predict
    rw [hlm]
    exact he'

/-- A pipeline returning the constant raw value 5. -/
def pipeConst : Pipe := fun _ => .ok 5

/-- A pipeline that raises on any input. -/
def pipeRaise : Pipe := fun _ => .error "boom"

/-- A filesystem with the models directory and every artifact present and
deserializable into the constant pipeline. -/
def fsGood : FS := FS.mk true (fun _ => true) (fun _ => some pipeConst)

/-- Witness for C5: a cold-start request on a fully stocked filesystem serves
all eight targets, and one raising pipeline in a loaded registry fails the
whole request. -/
theorem C5_all_or_nothing_witness :
    (COUNT_TARGETS.map fun t => (t, max 0 (pythonRound 5))).map Prod.fst =
      COUNT_TARGETS ∧
    ∃ e', (predict (some [("pcp_visits", pipeRaise)]) fsGood []).1 =
      .error e' := by
  constructor
  · exact C5_all_or_nothing.1 fsGood []
      (COUNT_TARGETS.map fun t => (t, max 0 (pythonRound 5))) rfl
  · exact C5_all_or_nothing.2 (some [("pcp_visits", pipeRaise)]) fsGood []
      [("pcp_visits", pipeRaise)] (some [("pcp_visits", pipeRaise)])
      "pcp_visits" pipeRaise "boom" rfl (List.Mem.head _) rfl

/-- C6: if one listed target's artifact file is missing, health fails and
predict serves nothing for any target — also when every other target's
artifact is present and loadable. -/
theorem C6_missing_artifact_blocks_all (fs : FS) (t : String)
    (ht : t ∈ COUNT_TARGETS) (hmiss : fs.fileExists t = false) :
    (∃ e, (health none fs).1 = .error e) ∧
    (∀ features : FeatureInput, ∃ e, (predict none fs features).1 = .error e) := by
  have hload : ∃ e, (load_models none fs).1 = .error e := by
    cases hd : fs.modelsDirExists with
    | false => exact ⟨"Models directory not found", by simp [load_models, hd]⟩
    | true =>
        obtain ⟨e, he⟩ := loadLoop_error_of_missing fs COUNT_TARGETS [] t ht hmiss
        exact ⟨e, by simp [load_models, hd, he]⟩
  obtain ⟨e, he⟩ := hload
  obtain ⟨hh, hpred⟩ := endpoints_error_of_load_error none fs e he
  exact ⟨⟨e, hh⟩, fun features => ⟨e, hpred features⟩⟩

/-- A filesystem where only the er_visits artifact file is missing; every
other artifact exists and deserializes. -/
def fsMissingEr : FS :=
  FS.mk true (fun t => !(t == "er_visits")) (fun _ => some pipeConst)

/-- Witness for C6 with only the er_visits artifact missing. -/
theorem C6_missing_artifact_blocks_all_witness :
    (∃ e, (health none fsMissingEr).1 = .error e) ∧
    (∃ e, (predict none fsMissingEr []).1 = .error e) := by
  obtain ⟨h1, h2⟩ := C6_missing_artifact_blocks_all fsMissingEr "er_visits"
    (by decide) (by decide)
  exact ⟨h1, h2 []⟩

/-- Program counter of one request thread executing `_load_models`.  The body
between the cached-registry check (server.py line 169) and the publishing
assignment (line 184) touches shared state only through that final
assignment, so the model makes the check one atomic step and the whole
load-and-publish another. -/
inductive ThreadPC where
  | start
  | loading
  | failed
  | finished (r : Registry)

/-- Shared state of concurrently running first callers: the module global
`_MODELS`, each thread's position, and how many full load sequences have
executed. -/
structure ConcState where
  cache : Option Registry
  pcs : List ThreadPC
  loads : Nat

/-- A cold service with n request threads about to make their first call. -/
def initConc (n : Nat) : ConcState :=
  ConcState.mk none (List.replicate n ThreadPC.start) 0

/-- One atomic step of thread i: either its check of the global — returning
the cached registry when set, committing to a load otherwise — or its full
load sequence, which reads and deserializes every artifact and then publishes
the registry (or fails). -/
def stepThread (fs : FS) (c : ConcState) (i : Nat) : ConcState :=
  match c.pcs[i]? with
  | some ThreadPC.start =>
    match c.cache with
    | some r => ConcState.mk c.cache (c.pcs.set i (ThreadPC.finished r)) c.loads
    | none => ConcState.mk c.cache (c.pcs.set i ThreadPC.loading) c.loads
  | some ThreadPC.loading =>
    if fs.modelsDirExists then
      match loadLoop fs COUNT_TARGETS [] with
      | .ok reg =>
          ConcState.mk (some reg) (c.pcs.set i (ThreadPC.finished reg))
            (c.loads + 1)
      | .error _ =>
          ConcState.mk c.cache (c.pcs.set i ThreadPC.failed) (c.loads + 1)
    else ConcState.mk c.cache (c.pcs.set i ThreadPC.failed) (c.loads + 1)
  | _ => c

/-- Run the threads under a schedule, the interleaving order of their atomic
steps. -/
def runSched (fs : FS) (sched : List Nat) (c : ConcState) : ConcState :=
  sched.foldl (stepThread fs) c

/-- Reading an updated slot yields either the written value or an old one. -/
theorem set_getElem?_cases {α : Type} (l : List α) (i j : Nat) (a b : α)
    (h : (l.set i a)[j]? = some b) : b = a ∨ l[j]? = some b := by
  rw [List.getElem?_set] at h
  by_cases hij : i = j
  · rw [if_pos hij] at h
    by_cases hlt : i < l.length
    · rw [if_pos hlt] at h
      exact Or.inl (Option.some.inj h).symm
    · rw [if_neg hlt] at h
      exact (Option.noConfusion h)
  · rw [if_neg hij] at h
    exact Or.inr h

/-- The safety invariant of the unsynchronized lazy load: the shared cache
and every finished thread only ever hold a fully populated registry. -/
def fullReg (c : ConcState) : Prop :=
  (∀ r, c.cache = some r → r.map Prod.fst = COUNT_TARGETS) ∧
  (∀ (i : Nat) (r : Registry), c.pcs[i]? = some (ThreadPC.finished r) →
    r.map Prod.fst = COUNT_TARGETS)

/-- Every atomic step preserves the fully-populated invariant. -/
theorem fullReg_step (fs : FS) (c : ConcState) (i : Nat) (h : fullReg c) :
    fullReg (stepThread fs c i) := by
  obtain ⟨hc, hp⟩ := h
  unfold stepThread
  cases hpc : c.pcs[i]? with
  | none => exact ⟨hc, hp⟩
  | some pc =>
      cases pc with
      | start =>
          cases hcache : c.cache with
          | some r =>
              constructor
              · intro r₁ h₁
                cases h₁
                exact hc r hcache
              · intro j r' hj
                rcases set_getElem?_cases _ _ _ _ _ hj with heq | hold
                · cases heq; exact hc r hcache
                · exact hp j r' hold
          | none =>
              constructor
              · intro r₁ h₁
                exact (Option.noConfusion h₁)
              · intro j r' hj
                rcases set_getElem?_cases _ _ _ _ _ hj with heq | hold
                · exact (ThreadPC.noConfusion heq)
                · exact hp j r' hold
      | loading =>
          cases hd : fs.modelsDirExists with
          | false =>
              simp only [Bool.false_eq_true, if_false]
              refine ⟨hc, ?_⟩
              intro j r' hj
              rcases set_getElem?_cases _ _ _ _ _ hj with heq | hold
              · exact (ThreadPC.noConfusion heq)
              · exact hp j r' hold
          | true =>
              simp only [if_true]
              cases hl : loadLoop fs COUNT_TARGETS [] with
              | ok reg =>
                  have hkeys : reg.map Prod.fst = COUNT_TARGETS := by
                    simpa using loadLoop_ok_keys fs COUNT_TARGETS [] reg hl
                  constructor
                  · intro r hr
                    cases hr; exact hkeys
                  · intro j r' hj
                    rcases set_getElem?_cases _ _ _ _ _ hj with heq | hold
                    · cases heq; exact hkeys
                    · exact hp j r' hold
              | error e =>
                  refine ⟨hc, ?_⟩
                  intro j r' hj
                  rcases set_getElem?_cases _ _ _ _ _ hj with heq | hold
                  · exact (ThreadPC.noConfusion heq)
                  · exact hp j r' hold
      | failed => exact ⟨hc, hp⟩
      | finished r => exact ⟨hc, hp⟩

/-- The invariant holds along every schedule. -/
theorem fullReg_runSched (fs : FS) (sched : List Nat) (c : ConcState)
    (h : fullReg c) : fullReg (runSched fs sched c) := by
  induction sched generalizing c with
  | nil => exact h
  | cons s rest ih => exact ih _ (fullReg_step fs c s h)

/-- A cold service satisfies the invariant. -/
theorem fullReg_init (n : Nat) : fullReg (initConc n) := by
  constructor
  · intro r hr; exact (Option.noConfusion hr)
  · intro i r hr
    by_cases hin : i < n
    · simp [initConc, List.getElem?_replicate, hin] at hr
    · simp [initConc, List.getElem?_replicate, hin] at hr

/-- Counterexample to C9: on a cold service with every artifact present and
loadable, two first callers that both pass the cached-registry check before
either finishes loading each execute a full, independent load sequence — two
loads run, not exactly one.  `_load_models` takes no lock around the
Unloaded-to-Loaded transition. -/
theorem C9_counterexample_two_loads :
    (runSched fsGood [0, 1, 0, 1] (initConc 2)).loads = 2 := rfl

/-- C9 (amended): without synchronization, concurrent first callers of a
cold service may each execute an independent full load sequence, so the
exactly-once part of the claim fails; what does hold is the half-population
part: under every schedule, the shared cache and every caller that finished
hold a registry with exactly the known targets — a caller never observes a
half-populated pipeline set, because each load builds its registry privately
and publishes it only when complete. -/
theorem C9_no_half_population (fs : FS) (sched : List Nat) (n : Nat) :
    (∀ r, (runSched fs sched (initConc n)).cache = some r →
      r.map Prod.fst = COUNT_TARGETS) ∧
    (∀ (i : Nat) (r : Registry),
      (runSched fs sched (initConc n)).pcs[i]? =
        some (ThreadPC.finished r) →
      r.map Prod.fst = COUNT_TARGETS) :=
  fullReg_runSched fs sched (initConc n) (fullReg_init n)

/-- The registry that a successful load of the good filesystem builds. -/
def regGood : Registry := COUNT_TARGETS.map fun t => (t, pipeConst)

/-- Witness for the amended C9 at the duplicated-load schedule: the thread
that finished first holds the fully populated registry. -/
theorem C9_no_half_population_witness :
    regGood.map Prod.fst = COUNT_TARGETS :=
  (C9_no_half_population fsGood [0, 1, 0, 1] 2).2 0 regGood rfl

/-- One entry of the MLflow store's version listing for the managed model
name: the version number and the stage it currently occupies. -/
structure MV where
  version : Nat
  current_stage : String
deriving DecidableEq

/-- An opaque deserialized artifact, identified by the version number
`mlflow.sklearn.load_model` was asked for. -/
abbrev Artifact := Nat

/-- The MLflow tracking store as one `fetch_latest_model` call observes it:
the outcome of `search_model_versions` for the managed name (an error models
a raised MlflowException, e.g. an unreachable store) and the loader of a
version's artifact. -/
structure TrackingStore where
  searchResult : Except String (List MV)
  loadModel : Nat → Artifact

/-- `ModelRegistryManager.fetch_latest_model` (model_registry.py lines
50-68): list the model's versions, scan for the first whose current stage
equals the requested stage, and return its loaded artifact; with no match,
print a message and return None; when the store raises, print the error and
return None.  First component: the Python return value; second: the printed
lines. -/
def fetch_latest_model (store : TrackingStore) (stage : String) :
    Option Artifact × List String :=
  match store.searchResult with
  | .ok versions =>
    match versions.find? (fun v => v.current_stage == stage) with
    | some v => (some (store.loadModel v.version),
        ["Fetching latest model at stage: " ++ stage])
    | none => (none, ["No model found at stage: " ++ stage])
  | .error e => (none, ["Error fetching model at stage " ++ stage ++ ": " ++ e])

/-- A store whose version search raises: the store is unreachable. -/
def storeUnreachable : TrackingStore :=
  TrackingStore.mk (.error "connection refused") (fun _ => 0)

/-- A reachable store listing one version, which occupies stage None only. -/
def storeNoneStageOnly : TrackingStore :=
  TrackingStore.mk (.ok [MV.mk 1 "None"]) (fun _ => 0)

/-- Counterexample to C3: the value fetch_latest_model returns to its caller
is None both when the store is unreachable and when the store is reachable
with no version at the requested stage, so the two outcomes are not
distinguishable from the returned result; only the printed log line
differs. -/
theorem C3_counterexample_indistinguishable :
    (fetch_latest_model storeUnreachable "Production").1 =
      (fetch_latest_model storeNoneStageOnly "Production").1 ∧
    (fetch_latest_model storeUnreachable "Production").1 = none ∧
    (fetch_latest_model storeUnreachable "Production").2 ≠
      (fetch_latest_model storeNoneStageOnly "Production").2 := by
  refine ⟨rfl, rfl, ?_⟩
  decide

/-- C3 (amended): fetch_latest_model returns None to its caller both when no
listed version occupies the requested stage and when the store raises; the
two cases are distinguished only by the printed log line, never by the
returned value.  When some version occupies the stage, the first match's
artifact is loaded and returned. -/
theorem C3_fetch_outcomes (store : TrackingStore) (stage : String) :
    (∀ e, store.searchResult = .error e →
      fetch_latest_model store stage =
        (none, ["Error fetching model at stage " ++ stage ++ ": " ++ e])) ∧
    (∀ versions, store.searchResult = .ok versions →
      versions.find? (fun v => v.current_stage == stage) = none →
      fetch_latest_model store stage =
        (none, ["No model found at stage: " ++ stage])) ∧
    (∀ versions v, store.searchResult = .ok versions →
      versions.find? (fun v => v.current_stage == stage) = some v →
      fetch_latest_model store stage =
        (some (store.loadModel v.version),
          ["Fetching latest model at stage: " ++ stage])) := by
  refine ⟨?_, ?_, ?_⟩
  · intro e he; simp only [fetch_latest_model, he]
  · intro versions hv hf; simp only [fetch_latest_model, hv, hf]
  · intro versions v hv hf; simp only [fetch_latest_model, hv, hf]

/-- Witness for the amended C3 at the two concrete stores. -/
theorem C3_fetch_outcomes_witness :
    fetch_latest_model storeUnreachable "Production" =
      (none, ["Error fetching model at stage " ++ "Production" ++ ": " ++
        "connection refused"]) ∧
    fetch_latest_model storeNoneStageOnly "Production" =
      (none, ["No model found at stage: " ++ "Production"]) :=
  ⟨(C3_fetch_outcomes storeUnreachable "Production").1 "connection refused" rfl,
   (C3_fetch_outcomes storeNoneStageOnly "Production").2.1 [MV.mk 1 "None"]
     rfl (by decide)⟩

/-- `ModelRegistryManager.register_model` (model_registry.py lines 19-33):
ask the store to register the run's model under the managed name; on success
keep the created version descriptor and print a confirmation; on a raised
MlflowException print the error and set the result to None.  The store
outcome models `mlflow.register_model`; first component the Python return
value, second the printed lines. -/
def register_model (storeOutcome : Except String MV) (name runId : String) :
    Option MV × List String :=
  match storeOutcome with
  | .ok v => (some v,
      ["Registering model with name: " ++ name ++ " and run ID: " ++ runId])
  | .error e => (none, ["Error registering model: " ++ e])

/-- Counterexample to C7: two store failures with different underlying causes
produce identical return values (None) — the result register_model hands its
caller carries no cause; the cause appears only in the printed line. -/
theorem C7_counterexample_no_cause :
    (register_model (.error "registry unreachable") "meps-v2" "abc123").1 =
      (register_model (.error "run abc123 not found") "meps-v2" "abc123").1 ∧
    (register_model (.error "registry unreachable") "meps-v2" "abc123").1 =
      none :=
  ⟨rfl, rfl⟩

/-- C7 (amended): register_model never propagates a store failure to its
caller — it is a total function of the store outcome, the caught exception
being only printed.  On success it returns the created version descriptor;
on any store-level failure it returns None, a failure marker that does not
carry the underlying cause. -/
theorem C7_register_outcomes (storeOutcome : Except String MV)
    (name runId : String) :
    (∀ v, storeOutcome = .ok v →
      (register_model storeOutcome name runId).1 = some v) ∧
    (∀ e, storeOutcome = .error e →
      (register_model storeOutcome name runId).1 = none ∧
      (register_model storeOutcome name runId).2 =
        ["Error registering model: " ++ e]) := by
  constructor
  · intro v hv; unfold register_model; rw [hv]
  · intro e he; unfold register_model; rw [he]; exact ⟨rfl, rfl⟩

/-- Witness for the amended C7: one successful and one failing store call. -/
theorem C7_register_outcomes_witness :
    (register_model (.ok (MV.mk 7 "None")) "meps-v2" "abc123").1 =
      some (MV.mk 7 "None") ∧
    (register_model (.error "registry unreachable") "meps-v2" "abc123").1 =
      none :=
  ⟨(C7_register_outcomes (.ok (MV.mk 7 "None")) "meps-v2" "abc123").1
     (MV.mk 7 "None") rfl,
   ((C7_register_outcomes (.error "registry unreachable") "meps-v2"
     "abc123").2 "registry unreachable" rfl).1⟩

/-- `ModelRegistryManager.transition_model_stage` (model_registry.py lines
35-48): call the store's stage transition with the managed name, the version
and the requested stage, with no check of the stage value; print a
confirmation, or print the error when the store raises.  The function body
has no return statement, so the caller receives None either way.
Components: the Python return value (Unit, for None), the store calls made
with the arguments forwarded, and the printed lines. -/
def transition_model_stage
    (storeResp : String → Nat → String → Except String Unit)
    (name : String) (version : Nat) (stage : String) :
    Unit × List (String × Nat × String) × List String :=
  match storeResp name version stage with
  | .ok _ => ((), [(name, version, stage)],
      ["Transitioning model " ++ name ++ " to stage: " ++ stage])
  | .error e => ((), [(name, version, stage)],
      ["Error transitioning model to stage " ++ stage ++ ": " ++ e])

/-- A store that rejects every transition request, e.g. for an unsupported
stage value. -/
def storeRejects : String → Nat → String → Except String Unit :=
  fun _ _ stage => .error ("Invalid stage: " ++ stage)

/-- A store that accepts every transition request. -/
def storeAccepts : String → Nat → String → Except String Unit :=
  fun _ _ _ => .ok ()

/-- Counterexample to C8: when the store rejects the stage, the caller of
transition_model_stage receives exactly what it receives on success — the
Python None — so the store's failure is not reported to the caller as a
Failure; the rejection shows up only in the printed line. -/
theorem C8_counterexample_no_failure_to_caller :
    (transition_model_stage storeRejects "meps-v2" 3 "NotAStage").1 =
      (transition_model_stage storeAccepts "meps-v2" 3 "Production").1 ∧
    (transition_model_stage storeRejects "meps-v2" 3 "NotAStage").2.2 =
      ["Error transitioning model to stage " ++ "NotAStage" ++ ": " ++
        ("Invalid stage: " ++ "NotAStage")] :=
  ⟨rfl, rfl⟩

/-- C8 (amended): transition_model_stage performs no local validation — for
every stage value, supported or not, it makes exactly one store call
forwarding the model name, version and stage verbatim; when the store
rejects, the exception is caught and only a printed line reports it, while
the function returns None to its caller in every case — the failure is not
reported to the caller as a Failure value. -/
theorem C8_transition_forwards
    (storeResp : String → Nat → String → Except String Unit)
    (name : String) (version : Nat) (stage : String) :
    (transition_model_stage storeResp name version stage).2.1 =
      [(name, version, stage)] ∧
    (transition_model_stage storeResp name version stage).1 = () ∧
    (∀ e, storeResp name version stage = .error e →
      (transition_model_stage storeResp name version stage).2.2 =
        ["Error transitioning model to stage " ++ stage ++ ": " ++ e]) := by
  refine ⟨?_, rfl, ?_⟩
  · unfold transition_model_stage
    cases storeResp name version stage <;> rfl
  · intro e he; unfold transition_model_stage; rw [he]

/-- Witness for the amended C8 at a rejecting store and an unsupported
stage value. -/
theorem C8_transition_forwards_witness :
    (transition_model_stage storeRejects "meps-v2" 3 "Archived").2.1 =
      [("meps-v2", 3, "Archived")] ∧
    (transition_model_stage storeRejects "meps-v2" 3 "Archived").2.2 =
      ["Error transitioning model to stage " ++ "Archived" ++ ": " ++
        ("Invalid stage: " ++ "Archived")] := by
  obtain ⟨h1, _, h3⟩ := C8_transition_forwards storeRejects "meps-v2" 3 "Archived"
  exact ⟨h1, h3 ("Invalid stage: " ++ "Archived") rfl⟩

/-- Entrywise behavior of neg_to_nan (server.py lines 44-55): a negative
numeric entry becomes the missing marker NaN; any other entry — including an
already-missing NaN, which compares false against 0 — is unchanged. -/
def maskNeg (v : Option ℚ) : Option ℚ :=
  match v with
  | none => none
  | some q => if q < 0 then none else some q

/-- neg_to_nan on a pandas Series or DataFrame column (server.py lines
50-51): `X.mask(X < 0)` builds a new object with every negative entry
masked; the input is not written to. -/
def neg_to_nan_series (s : List (Option ℚ)) : List (Option ℚ) :=
  s.map maskNeg

/-- neg_to_nan on an array-like (server.py lines 52-55), with the NumPy
buffers made explicit as a heap of buffers addressed by index:
`np.asarray(X, dtype=float)` may alias the input buffer at address r,
`arr.copy()` allocates a fresh buffer, and the masked assignment
`arr[arr < 0] = np.nan` mutates only that fresh buffer, whose address is
returned together with the new heap. -/
def neg_to_nan_array (heap : List (List (Option ℚ))) (r : Nat) :
    List (List (Option ℚ)) × Nat :=
  (heap ++ [(heap.getD r []).map maskNeg], heap.length)

/-- Entrywise specification of the masking map: same shape, strictly
negative entries become missing, non-negative entries unchanged. -/
theorem maskNeg_map_spec (s : List (Option ℚ)) :
    (s.map maskNeg).length = s.length ∧
    ∀ (i : Nat) (q : ℚ), s[i]? = some (some q) →
      (q < 0 → (s.map maskNeg)[i]? = some none) ∧
      (0 ≤ q → (s.map maskNeg)[i]? = some (some q)) := by
  refine ⟨by simp, ?_⟩
  intro i q hq
  constructor
  · intro hneg
    rw [List.getElem?_map, hq]
    simp [maskNeg, hneg]
  · intro hpos
    rw [List.getElem?_map, hq]
    simp [maskNeg, not_lt.mpr hpos]

/-- C10: neg_to_nan returns an output of the input's shape in which every
entry strictly below zero is replaced by the missing marker and every entry
at least zero is unchanged, and it does not mutate its input: the
Series/DataFrame branch builds a new object, and the array branch writes
only into the freshly copied buffer, leaving every pre-existing heap buffer
— the input included — untouched. -/
theorem C10_neg_to_nan (heap : List (List (Option ℚ))) (r : Nat)
    (s : List (Option ℚ)) :
    (∀ i, i < heap.length → (neg_to_nan_array heap r).1[i]? = heap[i]?) ∧
    ((neg_to_nan_array heap r).1[(neg_to_nan_array heap r).2]? =
      some ((heap.getD r []).map maskNeg)) ∧
    (((heap.getD r []).map maskNeg).length = (heap.getD r []).length) ∧
    (∀ (i : Nat) (q : ℚ), (heap.getD r [])[i]? = some (some q) →
      (q < 0 → ((heap.getD r []).map maskNeg)[i]? = some none) ∧
      (0 ≤ q → ((heap.getD r []).map maskNeg)[i]? = some (some q))) ∧
    ((neg_to_nan_series s).length = s.length ∧
      ∀ (i : Nat) (q : ℚ), s[i]? = some (some q) →
        (q < 0 → (neg_to_nan_series s)[i]? = some none) ∧
        (0 ≤ q → (neg_to_nan_series s)[i]? = some (some q))) := by
  refine ⟨?_, ?_, (maskNeg_map_spec _).1, (maskNeg_map_spec _).2,
    maskNeg_map_spec s⟩
  · intro i hi
    simp [neg_to_nan_array, List.getElem?_append, hi]
  · simp [neg_to_nan_array, List.getElem?_concat_length]

/-- Witness for C10 on the buffer holding -1, 2 and a NaN: the input buffer
is untouched and the negative entry of the result is masked. -/
theorem C10_neg_to_nan_witness :
    ((neg_to_nan_array [[some (-1 : ℚ), some 2, none]] 0).1[0]? =
      ([[some (-1 : ℚ), some 2, none]] : List (List (Option ℚ)))[0]?) ∧
    ((([[some (-1 : ℚ), some 2, none]] :
        List (List (Option ℚ))).getD 0 []).map maskNeg)[0]? = some none := by
  obtain ⟨h1, _, _, h4, _⟩ :=
    C10_neg_to_nan [[some (-1 : ℚ), some 2, none]] 0 []
  exact ⟨h1 0 (by decide), (h4 0 (-1) rfl).1 (by decide)⟩

end OpenCoverage
